import Mathlib

/-!
Verification of the AVA intent-embedding generation pipeline
(`Tools/AVA/embedding-generator/generate_embeddings.py`).

The development shallowly embeds the pipeline's pure algorithmic core:

* the WordPiece tokenizer (`BertTokenizer.tokenize`, `BertTokenizer._wordpiece`),
* the per-intent embedding aggregation (`EmbeddingGenerator.compute_intent_embedding`),
* the three source-format parsers and the intent-table merge (`load_ava_files`),
* the AOT binary encoder (`generate_aot`) and a decoder modelled from the
  format specification,
* the SQL text emitter (`generate_sql`).

Machine integers are modelled as `Nat` with explicit `% 2^w` where overflow
matters; bytes are `Nat` values; float32 vector components are carried as
their 32-bit patterns (`Nat < 2^32`) wherever only their byte representation
matters, and as real numbers where their arithmetic matters.
-/

namespace AvaEmbed

/-! ## Vocabulary and tokenizer (`BertTokenizer`) -/

/-- Index of the last occurrence of `key` in `lines`, if any.  This models the
Python dict built by `self.vocab[token] = idx` over `enumerate(f)`: a later
duplicate line overwrites an earlier one, so lookup returns the last index. -/
def lookupLast : List String → String → Option Nat
  | [], _ => none
  | tok :: rest, key =>
      match lookupLast rest key with
      | some i => some (i + 1)
      | none => if tok = key then some 0 else none

/-- The tokenizer's state: the (stripped) lines of the vocabulary file, in
order.  Line index is token id (`BertTokenizer.__init__`). -/
structure Tokenizer where
  vocabLines : List String

/-- `token in self.vocab` / `self.vocab[token]`: lookup by token string. -/
def Tokenizer.lookup (t : Tokenizer) (tok : String) : Option Nat :=
  lookupLast t.vocabLines tok

/-- `self.cls_token_id = self.vocab.get('[CLS]', 101)`. -/
def Tokenizer.cls_token_id (t : Tokenizer) : Nat := (t.lookup "[CLS]").getD 101

/-- `self.sep_token_id = self.vocab.get('[SEP]', 102)`. -/
def Tokenizer.sep_token_id (t : Tokenizer) : Nat := (t.lookup "[SEP]").getD 102

/-- `self.pad_token_id = self.vocab.get('[PAD]', 0)`. -/
def Tokenizer.pad_token_id (t : Tokenizer) : Nat := (t.lookup "[PAD]").getD 0

/-- `self.unk_token_id = self.vocab.get('[UNK]', 100)`. -/
def Tokenizer.unk_token_id (t : Tokenizer) : Nat := (t.lookup "[UNK]").getD 100

/-- `self.max_length = 128`. -/
def maxLength : Nat := 128

/-- The continuation marker: `'##' + substr if start > 0 else substr`. -/
def wpMark (isCont : Bool) : String := if isCont then "##" else ""

/-- The inner loop of `BertTokenizer._wordpiece`: for the remaining suffix
`rem` of the word, try candidate lengths `n, n-1, …, 1` (the Python loop
decrements `end` from `len(word)` towards `start`) and return the vocabulary
id of the longest match together with the match length minus one (so a result
`(id, m)` means the piece `rem.take (m+1)` matched). -/
def wpScan (t : Tokenizer) (isCont : Bool) (rem : List Char) : Nat → Option (Nat × Nat)
  | 0 => none
  | n + 1 =>
      match t.lookup (wpMark isCont ++ String.mk (rem.take (n + 1))) with
      | some id => some (id, n)
      | none => wpScan t isCont rem n

/-- The outer loop of `BertTokenizer._wordpiece`, recursing on the remaining
suffix of the word.  `isCont` models `start > 0` (false only before the first
piece is consumed): on a match of length `m+1` the position advances past it,
on no match an UNK id is emitted and the position advances by one. -/
def wordpieceAux (t : Tokenizer) (isCont : Bool) (rem : List Char) : List Nat :=
  if h : rem = [] then []
  else
    match wpScan t isCont rem rem.length with
    | some (id, m) => id :: wordpieceAux t true (rem.drop (m + 1))
    | none => t.unk_token_id :: wordpieceAux t true (rem.drop 1)
termination_by rem.length
decreasing_by
  · have : 0 < rem.length := List.length_pos.mpr h
    simp only [List.length_drop]
    omega
  · have : 0 < rem.length := List.length_pos.mpr h
    simp only [List.length_drop]
    omega

/-- `BertTokenizer._wordpiece(word)`: subword-tokenize a single word. -/
def Tokenizer.wordpiece (t : Tokenizer) (word : String) : List Nat :=
  wordpieceAux t false word.data

/-- The word loop of `BertTokenizer.tokenize`: a whole-vocabulary word emits
its id, any other word goes through WordPiece. -/
def tokenizeWords (t : Tokenizer) (words : List String) : List Nat :=
  (words.map fun word =>
    match t.lookup word with
    | some id => [id]
    | none => t.wordpiece word).flatten

/-- `text.lower()` (character-wise; faithful on the ASCII text this pipeline
processes). -/
def pyLower (s : String) : String := String.mk (s.data.map Char.toLower)

/-- `text.strip()`. -/
def pyStrip (s : String) : String := s.trim

/-- `text.split()`: split on whitespace runs, no empty words. -/
def pySplit (s : String) : List String :=
  (s.split Char.isWhitespace).filter (fun w => w ≠ "")

/-- The three parallel output arrays of `BertTokenizer.tokenize`. -/
structure TokenizedSeq where
  input_ids : List Nat
  attention_mask : List Nat
  token_type_ids : List Nat

/-- `BertTokenizer.tokenize(text)`: lowercase and strip, split into words,
WordPiece-tokenize, truncate to `max_length - 2`, frame with CLS/SEP, and pad
all three arrays to `max_length`. -/
def Tokenizer.tokenize (t : Tokenizer) (text : String) : TokenizedSeq :=
  let words := pySplit (pyStrip (pyLower text))
  let tokens := (tokenizeWords t words).take (maxLength - 2)
  let input_ids := t.cls_token_id :: tokens ++ [t.sep_token_id]
  let n := input_ids.length
  let padding_length := maxLength - n
  { input_ids := input_ids ++ List.replicate padding_length t.pad_token_id
    attention_mask := List.replicate n 1 ++ List.replicate padding_length 0
    token_type_ids := List.replicate n 0 ++ List.replicate padding_length 0 }

/-! ## Shape of `tokenize` output -/

/-- Structural decomposition of `tokenize`: some body of at most 126 ids,
framed by CLS/SEP, padded to 128 with the PAD id, with the mask and type
arrays padded in parallel. -/
theorem tokenize_shape (t : Tokenizer) (text : String) :
    ∃ body : List Nat, body.length ≤ 126 ∧
      (t.tokenize text).input_ids =
        (t.cls_token_id :: body ++ [t.sep_token_id]) ++
          List.replicate (126 - body.length) t.pad_token_id ∧
      (t.tokenize text).attention_mask =
        List.replicate (body.length + 2) 1 ++ List.replicate (126 - body.length) 0 ∧
      (t.tokenize text).token_type_ids =
        List.replicate (body.length + 2) 0 ++ List.replicate (126 - body.length) 0 := by
  have hlen : ((tokenizeWords t (pySplit (pyStrip (pyLower text)))).take
      (maxLength - 2)).length ≤ 126 := by
    have := List.length_take_le (maxLength - 2)
      (tokenizeWords t (pySplit (pyStrip (pyLower text))))
    simpa [maxLength] using this
  refine ⟨(tokenizeWords t (pySplit (pyStrip (pyLower text)))).take (maxLength - 2),
    hlen, ?_, ?_, ?_⟩ <;>
    simp only [Tokenizer.tokenize, List.length_cons, List.length_append,
      List.length_replicate, List.length_take, List.length_nil, maxLength] <;>
    congr 1 <;> congr 1 <;> omega

/-- C1: for every vocabulary and input text, `tokenize(text)` returns three
arrays of length exactly 128; the attention mask is a prefix of 1s followed by
0s; the first id equals the CLS id; and the id at the last position where the
mask is 1 (position `k - 1` for a mask of `k` ones) equals the SEP id. -/
theorem tokenize_frame_invariants (t : Tokenizer) (text : String) :
    ((t.tokenize text).input_ids.length = 128 ∧
      (t.tokenize text).attention_mask.length = 128 ∧
      (t.tokenize text).token_type_ids.length = 128) ∧
    ∃ k, 2 ≤ k ∧ k ≤ 128 ∧
      (t.tokenize text).attention_mask =
        List.replicate k 1 ++ List.replicate (128 - k) 0 ∧
      (t.tokenize text).input_ids[0]? = some t.cls_token_id ∧
      (t.tokenize text).input_ids[k - 1]? = some t.sep_token_id := by
  obtain ⟨body, hb, hin, hmask, htype⟩ := tokenize_shape t text
  refine ⟨⟨?_, ?_, ?_⟩, body.length + 2, by omega, by omega, ?_, ?_, ?_⟩
  · simp [hin]; omega
  · simp [hmask]; omega
  · simp [htype]; omega
  · rw [hmask]; congr 2; omega
  · rw [hin]; simp
  · rw [hin]
    have h1 : body.length + 2 - 1 = body.length + 1 := by omega
    rw [h1, List.getElem?_append_left (by simp)]
    show (t.cls_token_id :: (body ++ [t.sep_token_id]))[body.length + 1]? =
      some t.sep_token_id
    rw [List.getElem?_cons_succ]
    exact List.getElem?_concat_length body _

/-- A token string absent from the vocabulary lines has no id. -/
theorem lookupLast_eq_none {lines : List String} {key : String} (h : key ∉ lines) :
    lookupLast lines key = none := by
  induction lines with
  | nil => rfl
  | cons a l ih =>
      have h1 : key ∉ l := fun hm => h (List.mem_cons_of_mem a hm)
      have h2 : ¬a = key := fun he => h (he ▸ List.mem_cons_self a l)
      simp [lookupLast, ih h1, h2]

/-- C9: when the vocabulary file contains no `[CLS]`, `[SEP]`, `[PAD]` or
`[UNK]` line, the tokenizer falls back to the hard-coded ids 101, 102, 0 and
100, and every `tokenize` call frames its output with 101 at the front, 102 at
the last mask position, and pads the tail of the id array with 0. -/
theorem special_token_fallback (t : Tokenizer)
    (hc : "[CLS]" ∉ t.vocabLines) (hs : "[SEP]" ∉ t.vocabLines)
    (hp : "[PAD]" ∉ t.vocabLines) (hu : "[UNK]" ∉ t.vocabLines) (text : String) :
    t.cls_token_id = 101 ∧ t.sep_token_id = 102 ∧ t.pad_token_id = 0 ∧
      t.unk_token_id = 100 ∧
    ∃ k, 2 ≤ k ∧ k ≤ 128 ∧
      (t.tokenize text).input_ids[0]? = some 101 ∧
      (t.tokenize text).input_ids[k - 1]? = some 102 ∧
      ∀ i, k ≤ i → i < 128 → (t.tokenize text).input_ids[i]? = some 0 := by
  have hcls : t.cls_token_id = 101 := by
    simp [Tokenizer.cls_token_id, Tokenizer.lookup, lookupLast_eq_none hc]
  have hsep : t.sep_token_id = 102 := by
    simp [Tokenizer.sep_token_id, Tokenizer.lookup, lookupLast_eq_none hs]
  have hpad : t.pad_token_id = 0 := by
    simp [Tokenizer.pad_token_id, Tokenizer.lookup, lookupLast_eq_none hp]
  have hunk : t.unk_token_id = 100 := by
    simp [Tokenizer.unk_token_id, Tokenizer.lookup, lookupLast_eq_none hu]
  obtain ⟨body, hb, hin, hmask, htype⟩ := tokenize_shape t text
  refine ⟨hcls, hsep, hpad, hunk, body.length + 2, by omega, by omega, ?_, ?_, ?_⟩
  · rw [hin, hcls]; simp
  · rw [hin, hsep]
    have h1 : body.length + 2 - 1 = body.length + 1 := by omega
    rw [h1, List.getElem?_append_left (by simp)]
    show (t.cls_token_id :: (body ++ [(102 : Nat)]))[body.length + 1]? =
      some 102
    rw [List.getElem?_cons_succ]
    exact List.getElem?_concat_length body _
  · intro i hki hi
    rw [hin, hpad]
    rw [List.getElem?_append_right (by simp; omega)]
    exact List.getElem?_replicate_of_lt (by simp; omega)

/-- C9 (witness): the fallback theorem at a concrete vocabulary without
special tokens, on the text `"hello"`. -/
theorem special_token_fallback_witness :
    ((("[CLS]" : String) ∉ (["turn", "on", "wifi"] : List String)) ∧
      (("[SEP]" : String) ∉ (["turn", "on", "wifi"] : List String)) ∧
      (("[PAD]" : String) ∉ (["turn", "on", "wifi"] : List String)) ∧
      (("[UNK]" : String) ∉ (["turn", "on", "wifi"] : List String))) ∧
    ((Tokenizer.mk ["turn", "on", "wifi"]).cls_token_id = 101 ∧
      (Tokenizer.mk ["turn", "on", "wifi"]).sep_token_id = 102 ∧
      (Tokenizer.mk ["turn", "on", "wifi"]).pad_token_id = 0 ∧
      (Tokenizer.mk ["turn", "on", "wifi"]).unk_token_id = 100 ∧
      ∃ k, 2 ≤ k ∧ k ≤ 128 ∧
        ((Tokenizer.mk ["turn", "on", "wifi"]).tokenize "hello").input_ids[0]? =
          some 101 ∧
        ((Tokenizer.mk ["turn", "on", "wifi"]).tokenize
          "hello").input_ids[k - 1]? = some 102 ∧
        ∀ i, k ≤ i → i < 128 →
          ((Tokenizer.mk ["turn", "on", "wifi"]).tokenize
            "hello").input_ids[i]? = some 0) :=
  ⟨⟨by decide, by decide, by decide, by decide⟩,
    special_token_fallback (Tokenizer.mk ["turn", "on", "wifi"]) (by decide)
      (by decide) (by decide) (by decide) "hello"⟩

/-! ## Greedy longest-match characterization of `_wordpiece` (C2) -/

/-- The candidate piece of `word` at position `p` with length `ℓ`, prefixed
with the continuation marker `##` when the start position is greater than 0
(the claim's description of a WordPiece candidate). -/
def pieceStr (word : List Char) (p ℓ : Nat) : String :=
  (if 0 < p then "##" else "") ++ String.mk ((word.drop p).take ℓ)

/-- `pieceStr` agrees with the marker-and-substring strings scanned by
`wpScan`. -/
theorem pieceStr_eq (word : List Char) (p ℓ : Nat) :
    pieceStr word p ℓ = wpMark (decide (0 < p)) ++ String.mk ((word.drop p).take ℓ) := by
  by_cases h : 0 < p <;> simp [pieceStr, wpMark, h]

/-- The claim's description of the WordPiece step as a relation between a
start position and the emitted id sequence: at each position, the longest
vocabulary match (with `##` marker when the position is positive) is emitted
and skipped; when no length matches, UNK is emitted and the position advances
by one; the run ends when the word is consumed. -/
inductive WordPieceSpec (t : Tokenizer) (word : List Char) : Nat → List Nat → Prop
  | done : WordPieceSpec t word word.length []
  | matched (p ℓ id : Nat) (rest : List Nat)
      (hp : p < word.length) (hl : 1 ≤ ℓ) (hle : p + ℓ ≤ word.length)
      (hfound : t.lookup (pieceStr word p ℓ) = some id)
      (hmax : ∀ m, ℓ < m → p + m ≤ word.length → t.lookup (pieceStr word p m) = none)
      (hrest : WordPieceSpec t word (p + ℓ) rest) :
      WordPieceSpec t word p (id :: rest)
  | unk (p : Nat) (rest : List Nat)
      (hp : p < word.length)
      (hnone : ∀ m, 1 ≤ m → p + m ≤ word.length → t.lookup (pieceStr word p m) = none)
      (hrest : WordPieceSpec t word (p + 1) rest) :
      WordPieceSpec t word p (t.unk_token_id :: rest)

/-- A successful `wpScan` result is the longest matching candidate length:
every longer candidate below the scan bound fails to match. -/
theorem wpScan_eq_some {t : Tokenizer} {c : Bool} {rem : List Char} {n id m : Nat}
    (h : wpScan t c rem n = some (id, m)) :
    m < n ∧ t.lookup (wpMark c ++ String.mk (rem.take (m + 1))) = some id ∧
      ∀ j, m < j → j < n → t.lookup (wpMark c ++ String.mk (rem.take (j + 1))) = none := by
  induction n with
  | zero => simp [wpScan] at h
  | succ n ih =>
      rw [wpScan] at h
      cases hl : t.lookup (wpMark c ++ String.mk (rem.take (n + 1))) with
      | some id0 =>
          rw [hl] at h
          obtain ⟨rfl, rfl⟩ : id0 = id ∧ n = m := by
            constructor <;> (injection h with h1; injection h1) <;> omega
          exact ⟨by omega, hl, fun j hj1 hj2 => by omega⟩
      | none =>
          rw [hl] at h
          obtain ⟨h1, h2, h3⟩ := ih h
          refine ⟨by omega, h2, fun j hj1 hj2 => ?_⟩
          by_cases hj : j = n
          · subst hj; exact hl
          · exact h3 j hj1 (by omega)

/-- A failing `wpScan` means no candidate length below the scan bound
matches. -/
theorem wpScan_eq_none {t : Tokenizer} {c : Bool} {rem : List Char} {n : Nat}
    (h : wpScan t c rem n = none) :
    ∀ j, j < n → t.lookup (wpMark c ++ String.mk (rem.take (j + 1))) = none := by
  induction n with
  | zero => omega
  | succ n ih =>
      rw [wpScan] at h
      cases hl : t.lookup (wpMark c ++ String.mk (rem.take (n + 1))) with
      | some id0 => rw [hl] at h; exact absurd h (by simp)
      | none =>
          rw [hl] at h
          intro j hj
          by_cases hjn : j = n
          · subst hjn; exact hl
          · exact ih h j (by omega)

/-- The `_wordpiece` loop, started at any position `p` of the word, performs
the claimed greedy longest-match run from `p`. -/
theorem wordpieceAux_spec (t : Tokenizer) (word : List Char) :
    ∀ k p, word.length - p ≤ k → p ≤ word.length →
      WordPieceSpec t word p (wordpieceAux t (decide (0 < p)) (word.drop p)) := by
  intro k
  induction k with
  | zero =>
      intro p hk hp
      have hpl : p = word.length := by omega
      subst hpl
      rw [wordpieceAux]
      simp [WordPieceSpec.done]
  | succ k ih =>
      intro p hk hp
      by_cases hrem : word.drop p = []
      · have hpl : p = word.length := by
          have := List.length_drop p word
          rw [hrem] at this
          simp at this
          omega
        subst hpl
        rw [wordpieceAux]
        simp [WordPieceSpec.done]
      · have hplt : p < word.length := by
          have h0 : 0 < (word.drop p).length := List.length_pos.mpr hrem
          rw [List.length_drop] at h0
          omega
        have hremlen : (word.drop p).length = word.length - p := List.length_drop p word
        rw [wordpieceAux, dif_neg hrem]
        cases hscan : wpScan t (decide (0 < p)) (word.drop p) (word.drop p).length with
        | some r =>
            obtain ⟨id, m⟩ := r
            obtain ⟨hm, hfound, hmax⟩ := wpScan_eq_some hscan
            have hle : p + (m + 1) ≤ word.length := by omega
            refine WordPieceSpec.matched p (m + 1) id _ hplt (by omega) hle ?_ ?_ ?_
            · rw [pieceStr_eq]; exact hfound
            · intro m' hm' hm'le
              have hj := hmax (m' - 1) (by omega) (by omega)
              have : m' - 1 + 1 = m' := by omega
              rw [this] at hj
              rw [pieceStr_eq]; exact hj
            · have hdd : (word.drop p).drop (m + 1) = word.drop (p + (m + 1)) :=
                List.drop_drop _ _ _
              have hdec : decide (0 < p + (m + 1)) = true := by simp
              have := ih (p + (m + 1)) (by omega) hle
              rw [hdec] at this
              rw [hdd]
              exact this
        | none =>
            have hnone := wpScan_eq_none hscan
            refine WordPieceSpec.unk p _ hplt ?_ ?_
            · intro m' hm' hm'le
              have hj := hnone (m' - 1) (by omega)
              have : m' - 1 + 1 = m' := by omega
              rw [this] at hj
              rw [pieceStr_eq]; exact hj
            · have hdd : (word.drop p).drop 1 = word.drop (p + 1) :=
                List.drop_drop _ _ _
              have hdec : decide (0 < p + 1) = true := by simp
              have := ih (p + 1) (by omega) (by omega)
              rw [hdec] at this
              rw [hdd]
              exact this

/-- C2: for every word, `_wordpiece` emits ids by greedy longest-match from
position 0: at each position the longest vocabulary substring (with `##`
marker at positive positions) is emitted and skipped, UNK is emitted and the
position advanced by one when nothing matches, until the word is consumed. -/
theorem wordpiece_greedy_longest_match (t : Tokenizer) (word : String) :
    WordPieceSpec t word.data 0 (t.wordpiece word) := by
  have h := wordpieceAux_spec t word.data (word.data.length - 0) 0 (le_refl _)
    (Nat.zero_le _)
  simpa [Tokenizer.wordpiece] using h

/-! ## Intent-table merge (`load_ava_files`, lines 363-373) -/

/-- An intent table: intent id to example list, in dict insertion order. -/
abbrev IntentTable := List (String × List String)

/-- `intent_id in all_intents` / `all_intents[intent_id]`: dict lookup (keys
are unique, so first match is the match). -/
def tableFind (tbl : IntentTable) (id : String) : Option (List String) :=
  match tbl with
  | [] => none
  | (k, v) :: rest => if k = id then some v else tableFind rest id

/-- `all_intents[intent_id] = v`: dict assignment — an existing key keeps its
position, a new key is appended at the end. -/
def tableSet (tbl : IntentTable) (id : String) (v : List String) : IntentTable :=
  match tbl with
  | [] => [(id, v)]
  | (k, w) :: rest => if k = id then (k, v) :: rest else (k, w) :: tableSet rest id v

/-- One iteration of the merge loop in `load_ava_files`: if the intent id is
present, snapshot the existing example list into a set and append the new
examples that are not in that snapshot; otherwise insert the new list as is. -/
def mergeIntentsStep (all : IntentTable) (entry : String × List String) : IntentTable :=
  match tableFind all entry.1 with
  | some existing =>
      tableSet all entry.1
        (existing ++ entry.2.filter (fun ex => ¬existing.contains ex))
  | none => all ++ [(entry.1, entry.2)]

/-- The merge phase of `load_ava_files`: fold all per-file intents into the
accumulated table. -/
def mergeIntents (all : IntentTable) (intents : IntentTable) : IntentTable :=
  intents.foldl mergeIntentsStep all

/-- C5 (failing input): merging the new table `{"a": ["y", "y"]}` into the
existing table `{"a": ["x"]}` appends `"y"` twice — the membership snapshot
`existing = set(all_intents[intent_id])` is taken before the append loop and
never updated, so a duplicate inside the new example list slips through, and
the merged example list is not de-duplicated. -/
theorem mergeIntents_duplicate_on_new_dup :
    mergeIntents [("a", ["x"])] [("a", ["y", "y"])] = [("a", ["x", "y", "y"])] ∧
      ¬(["x", "y", "y"] : List String).Nodup := by
  constructor
  · rfl
  · decide

/-! ## Source-format parsers (C6)

The two JSON parsers operate on the result of `json.loads`, modelled as
`Option PyVal`: `none` is a `json.JSONDecodeError` (the only exception the
parsers catch), `some v` a parsed Python value.  The Python operations they
perform on dynamically-typed values are modelled exactly, including the
exceptions they raise on unexpected shapes. -/

/-- A Python value as produced by `json.loads` (numbers collapsed to `ℚ`,
which covers both int and float results). -/
inductive PyVal where
  | null
  | bool (b : Bool)
  | num (q : ℚ)
  | str (s : String)
  | arr (xs : List PyVal)
  | obj (kvs : List (String × PyVal))

/-- The Python exceptions the parser bodies can raise. -/
inductive PyErr where
  | typeError
  | attributeError
  | keyError
deriving DecidableEq

/-- `key in v` for a string key: dict → key membership, list → element
membership, str → substring test; other values raise TypeError
(argument not iterable). -/
def pyContainsStr (key : String) : PyVal → Except PyErr Bool
  | .obj kvs => .ok (kvs.any fun kv => kv.1 == key)
  | .arr xs => .ok (xs.any fun x => match x with | .str s => s == key | _ => false)
  | .str s => .ok (decide (key.data <:+: s.data))
  | _ => .error .typeError

/-- `v[key]` for a string key: only dicts support it (KeyError when absent);
lists and strings need integer indices, other values are not subscriptable. -/
def pySubscriptStr (v : PyVal) (key : String) : Except PyErr PyVal :=
  match v with
  | .obj kvs =>
      match kvs.find? (fun kv => kv.1 == key) with
      | some kv => .ok kv.2
      | none => .error .keyError
  | _ => .error .typeError

/-- `isinstance(v, list)`. -/
def pyIsList : PyVal → Bool
  | .arr _ => true
  | _ => false

/-- `v.get(key, default)`: a dict method — any other receiver raises
AttributeError. -/
def pyGet (v : PyVal) (key : String) (default : PyVal) : Except PyErr PyVal :=
  match v with
  | .obj kvs => .ok (((kvs.find? (fun kv => kv.1 == key)).map Prod.snd).getD default)
  | _ => .error .attributeError

/-- Python truthiness of a value. -/
def pyTruthy : PyVal → Bool
  | .null => false
  | .bool b => b
  | .num q => q != 0
  | .str s => s != ""
  | .arr xs => !xs.isEmpty
  | .obj kvs => !kvs.isEmpty

/-- Iterating a value (`for x in v` / `list.extend(v)`): lists yield their
elements, strings their characters, dicts their keys; other values raise
TypeError. -/
def pyIterList : PyVal → Except PyErr (List PyVal)
  | .arr xs => .ok xs
  | .str s => .ok (s.data.map fun c => PyVal.str (String.mk [c]))
  | .obj kvs => .ok (kvs.map fun kv => PyVal.str kv.1)
  | _ => .error .typeError

/-- Python `==` restricted to hashable (dict-key) values: `True == 1`,
numbers compare by value, strings by content; values of unrelated kinds are
unequal. -/
def pyKeyEq : PyVal → PyVal → Bool
  | .null, .null => true
  | .bool a, .bool b => a == b
  | .num a, .num b => a == b
  | .bool a, .num b => (if a then (1 : ℚ) else 0) == b
  | .num a, .bool b => a == (if b then (1 : ℚ) else 0)
  | .str a, .str b => a == b
  | _, _ => false

/-- A Python dict keyed by (hashable) values, in insertion order. -/
abbrev PyTable := List (PyVal × List PyVal)

/-- Dict assignment: replace in place or append at the end. -/
def pyTableSet : PyTable → PyVal → List PyVal → PyTable
  | [], key, v => [(key, v)]
  | (k, w) :: rest, key, v =>
      if pyKeyEq k key then (k, v) :: rest else (k, w) :: pyTableSet rest key v

/-- `intents[intent_id] = examples`: list and dict keys are unhashable and
raise TypeError. -/
def pyDictSet (tbl : PyTable) (key : PyVal) (v : List PyVal) : Except PyErr PyTable :=
  match key with
  | .arr _ => .error .typeError
  | .obj _ => .error .typeError
  | _ => .ok (pyTableSet tbl key v)

/-- The loop over `data['i']` in `parse_ava_json_format`: read `id`, `s` and
`c` from each entry, prepend the canonical example when truthy, extend with
the samples, and store under the id when any example survives. -/
def avaJsonItems : List PyVal → PyTable → Except PyErr PyTable
  | [], tbl => .ok tbl
  | intent :: rest, tbl => do
      let intent_id ← pyGet intent "id" (.str "")
      let samples ← pyGet intent "s" (.arr [])
      let canonical ← pyGet intent "c" (.str "")
      if pyTruthy intent_id then
        let examples0 := if pyTruthy canonical then [canonical] else []
        let ext ← pyIterList samples
        let examples := examples0 ++ ext
        if examples.isEmpty then avaJsonItems rest tbl
        else do
          let tbl' ← pyDictSet tbl intent_id examples
          avaJsonItems rest tbl'
      else avaJsonItems rest tbl

/-- `parse_ava_json_format(content)` on the outcome of `json.loads(content)`
(`none` = `json.JSONDecodeError`, the only exception caught): empty table on
decode failure, the `i`-array table otherwise; unexpected shapes raise. -/
def parse_ava_json_format (d : Option PyVal) : Except PyErr PyTable :=
  match d with
  | none => .ok []
  | some data => do
      let has ← pyContainsStr "i" data
      if has then do
        let di ← pySubscriptStr data "i"
        match di with
        | .arr items => avaJsonItems items []
        | _ => .ok []
      else .ok []

/-- `action.lower()`: a str method — any other receiver raises
AttributeError. -/
def pyLowerMethod : PyVal → Except PyErr PyVal
  | .str s => .ok (.str (pyLower s))
  | _ => .error .attributeError

/-- `[canonical] + synonyms`: list concatenation — a non-list right operand
raises TypeError. -/
def pyListConcat (c : PyVal) : PyVal → Except PyErr (List PyVal)
  | .arr xs => .ok (c :: xs)
  | _ => .error .typeError

/-- The loop over `commands` in `parse_vos_json_format`: read `action`, `cmd`
and `syn`; when action and canonical are truthy, store
`[canonical] + synonyms` under the lowercased action. -/
def vosJsonCommands : List PyVal → PyTable → Except PyErr PyTable
  | [], tbl => .ok tbl
  | cmd :: rest, tbl => do
      let action ← pyGet cmd "action" (.str "")
      let canonical ← pyGet cmd "cmd" (.str "")
      let synonyms ← pyGet cmd "syn" (.arr [])
      if pyTruthy action && pyTruthy canonical then do
        let intent_id ← pyLowerMethod action
        let examples ← pyListConcat canonical synonyms
        let tbl' ← pyDictSet tbl intent_id examples
        vosJsonCommands rest tbl'
      else vosJsonCommands rest tbl

/-- `parse_vos_json_format(content)` on the outcome of `json.loads(content)`:
empty table on decode failure, the `commands` table otherwise; unexpected
shapes raise. -/
def parse_vos_json_format (d : Option PyVal) : Except PyErr PyTable :=
  match d with
  | none => .ok []
  | some data => do
      let commands ← pyGet data "commands" (.arr [])
      let cmds ← pyIterList commands
      vosJsonCommands cmds []

/-- `s.split(sep)` for a one-character separator, over the character list. -/
def splitChar (sep : Char) : List Char → List (List Char)
  | [] => [[]]
  | c :: rest =>
      match splitChar sep rest with
      | h :: t => if c = sep then [] :: h :: t else (c :: h) :: t
      | [] => if c = sep then [[], []] else [[c]]

/-- `s.split(sep)` for a one-character separator. -/
def pySplitOn (sep : Char) (s : String) : List String :=
  (splitChar sep s.data).map String.mk

/-- `s.strip()`: drop leading and trailing whitespace. -/
def pyTrim (s : String) : String :=
  String.mk (((s.data.dropWhile Char.isWhitespace).reverse.dropWhile
    Char.isWhitespace).reverse)

/-- `s.startswith(c)` for a one-character needle. -/
def pyStartsWithChar (s : String) (c : Char) : Bool := s.data.head? == some c

/-- `c in s` for a one-character needle. -/
def pyContainsChar (s : String) (c : Char) : Bool := s.data.contains c

/-- Python `str.isupper()` (on the ASCII text this pipeline processes): at
least one cased character, and every cased character uppercase. -/
def pyIsUpper (s : String) : Bool :=
  (s.data.any fun c => c.isAlpha) && (s.data.all fun c => !c.isAlpha || c.isUpper)

/-- `if intent_id not in intents: intents[intent_id] = [];
intents[intent_id].append(example)`. -/
def tableAppendExample (tbl : IntentTable) (id ex : String) : IntentTable :=
  match tableFind tbl id with
  | some v => tableSet tbl id (v ++ [ex])
  | none => tbl ++ [(id, [ex])]

/-- One line of `parse_ava_yaml_format`'s loop, updating the delimiter count
and the intent table. -/
def yamlStep (st : Nat × IntentTable) (rawLine : String) : Nat × IntentTable :=
  let line := pyTrim rawLine
  if line = "" ∨ pyStartsWithChar line '#' then st
  else if line = "---" then (st.1 + 1, st.2)
  else if st.1 = 2 ∧ pyContainsChar line ':' then
    match pySplitOn ':' line with
    | p0 :: p1 :: rest =>
        if rest = [] then st
        else
          let intent_type := pyTrim p0
          let intent_id := pyTrim p1
          let ex := pyTrim (String.intercalate ":" rest)
          if pyContainsChar intent_type ' ' then st
          else if ¬pyIsUpper intent_type then st
          else if intent_id ≠ "" ∧ ex ≠ "" then
            (st.1, tableAppendExample st.2 intent_id ex)
          else st
    | _ => st
  else st

/-- `parse_ava_yaml_format(content)`: the legacy delimited format — process
the lines between the 2nd and 3rd `---` delimiter, accepting
`TYPE:intent_id:example` records with an all-uppercase TYPE.  Every operation
it performs is total, so it is modelled as a plain function (it cannot
raise). -/
def parse_ava_yaml_format (content : String) : IntentTable :=
  ((pySplitOn '\n' content).foldl yamlStep (0, [])).2

/-- C6 (counterexample): the input string `"5"` is valid JSON, so
`json.loads` yields the number 5, and `parse_ava_json_format` then evaluates
`'i' in 5`, which raises TypeError instead of returning an empty table — the
only exception the parser catches is `json.JSONDecodeError`. -/
theorem parse_ava_json_format_raises_on_number :
    parse_ava_json_format (some (.num 5)) = Except.error PyErr.typeError ∧
      parse_ava_json_format (some (.num 5)) ≠ Except.ok [] := by
  have h1 : parse_ava_json_format (some (.num 5)) = Except.error PyErr.typeError := rfl
  exact ⟨h1, by rw [h1]; exact fun h => Except.noConfusion h⟩

/-- C6 (amended): the two JSON parsers return an empty table without raising
whenever the input is not valid JSON (`json.loads` fails), and the legacy
delimited parser is a total function of the content (modelled here on the
spec's scenario input). -/
theorem parsers_malformed_input_behavior :
    parse_ava_json_format Option.none = Except.ok [] ∧
      parse_vos_json_format Option.none = Except.ok [] ∧
      parse_ava_yaml_format "---\nmeta\n---\nVCM:wifi_on:turn on wifi\n---\n" =
        [("wifi_on", ["turn on wifi"])] := by
  refine ⟨rfl, rfl, by decide⟩

/-! ## AOT binary container (C3, C4, C10)

Bytes are `Nat` values; a float32 vector component is carried as its 32-bit
pattern (`struct.pack '<f'` writes exactly those four bytes little-endian, and
the vectors reaching `generate_aot` are already `float32`). -/

/-- `struct.pack('<I', n)`: four little-endian bytes. -/
def le32 (n : Nat) : List Nat :=
  [n % 256, n / 256 % 256, n / 65536 % 256, n / 16777216 % 256]

/-- `MAGIC = b'AOT\x00'`. -/
def MAGIC : List Nat := [65, 79, 84, 0]

/-- One serialized record of the AOT payload: intent id as UTF-8 bytes,
vector as float32 bit patterns. -/
structure AotRecord where
  id : List Nat
  vec : List Nat
deriving DecidableEq

/-- `intent_id_len + intent_id + embedding.tobytes()`: the bytes written for
one record. -/
def recordBytes (r : AotRecord) : List Nat :=
  le32 r.id.length ++ r.id ++ (r.vec.map le32).flatten

/-- The header's dimension field: the first record's vector length, or the
hard-coded 384 for an empty table
(`next(iter(embeddings.values()))[0].shape[0] if embeddings else 384`). -/
def aotDimension (records : List AotRecord) : Nat :=
  match records with
  | [] => 384
  | r :: _ => r.vec.length

/-- `model_version.encode('utf-8')[:32].ljust(32, b'\x00')`. -/
def modelVersionBytes (mv : List Nat) : List Nat :=
  mv.take 32 ++ List.replicate (32 - (mv.take 32).length) 0

/-- `generate_aot(embeddings, model_version)`: the full byte stream written
to the output file — magic, version 1, record count, dimension, the 32-byte
model version, then the records in iteration order. -/
def generate_aot (records : List AotRecord) (mv : List Nat) : List Nat :=
  MAGIC ++ le32 1 ++ le32 records.length ++ le32 (aotDimension records) ++
    modelVersionBytes mv ++ (records.map recordBytes).flatten

/-- Decode failure, as the spec's FormatError. -/
inductive FormatError where
  | badMagic
  | badVersion
  | inconsistentLength
deriving DecidableEq

/-- Read one little-endian u32 from the front of the buffer. -/
def readU32LE (bs : List Nat) : Option (Nat × List Nat) :=
  match bs with
  | b0 :: b1 :: b2 :: b3 :: rest =>
      some (b0 + 256 * b1 + 65536 * b2 + 16777216 * b3, rest)
  | _ => none

/-- Read `dim` float32 components (as bit patterns) from the buffer. -/
def readF32s : Nat → List Nat → Option (List Nat × List Nat)
  | 0, bs => some ([], bs)
  | d + 1, bs => do
      let (x, rest) ← readU32LE bs
      let (xs, rest') ← readF32s d rest
      some (x :: xs, rest')

/-- Read `count` records of dimension `dim`, requiring the buffer to be
consumed exactly. -/
def readAotRecords (dim : Nat) : Nat → List Nat → Option (List AotRecord)
  | 0, bs => if bs.isEmpty then some [] else none
  | n + 1, bs => do
      let (idLen, bs1) ← readU32LE bs
      if idLen ≤ bs1.length then do
        let (vec, bs3) ← readF32s dim (bs1.drop idLen)
        let rest ← readAotRecords dim n bs3
        some ({ id := bs1.take idLen, vec := vec } :: rest)
      else none

/-- Modelled from the spec: the repository's sources contain no AOT decoder
(only the encoder `generate_aot`); §4.4 defines `decode(bytes) → records`,
failing with FormatError when the magic does not match, the version is
unsupported, or the declared record count/dimension is inconsistent with the
buffer's actual length. -/
def decode (bs : List Nat) : Except FormatError (List AotRecord) :=
  if bs.take 4 ≠ MAGIC then .error .badMagic
  else
    match readU32LE (bs.drop 4) with
    | none => .error .inconsistentLength
    | some (ver, rest1) =>
      if ver ≠ 1 then .error .badVersion
      else
        match readU32LE rest1 with
        | none => .error .inconsistentLength
        | some (count, rest2) =>
          match readU32LE rest2 with
          | none => .error .inconsistentLength
          | some (dim, rest3) =>
            if 32 ≤ rest3.length then
              match readAotRecords dim count (rest3.drop 32) with
              | some records => .ok records
              | none => .error .inconsistentLength
            else .error .inconsistentLength

/-- Reading back four little-endian bytes of a 32-bit value recovers it. -/
theorem readU32LE_le32 {n : Nat} (rest : List Nat) (h : n < 2 ^ 32) :
    readU32LE (le32 n ++ rest) = some (n, rest) := by
  simp only [le32, List.cons_append, List.nil_append, readU32LE]
  have hval : n % 256 + 256 * (n / 256 % 256) + 65536 * (n / 65536 % 256) +
      16777216 * (n / 16777216 % 256) = n := by omega
  rw [hval]

/-- The model-version field is always exactly 32 bytes. -/
theorem modelVersionBytes_length (mv : List Nat) :
    (modelVersionBytes mv).length = 32 := by
  simp [modelVersionBytes]

/-- Reading back a vector's float32 bytes recovers its bit patterns. -/
theorem readF32s_flatten {vec : List Nat} {dim : Nat} (rest : List Nat)
    (hdim : vec.length = dim) (h : ∀ c ∈ vec, c < 2 ^ 32) :
    readF32s dim ((vec.map le32).flatten ++ rest) = some (vec, rest) := by
  subst hdim
  induction vec with
  | nil => rfl
  | cons c cs ih =>
      have hc : c < 2 ^ 32 := h c (List.mem_cons_self c cs)
      have hcs : ∀ x ∈ cs, x < 2 ^ 32 := fun x hx => h x (List.mem_cons_of_mem c hx)
      simp only [List.map_cons, List.flatten_cons, List.length_cons, List.append_assoc]
      rw [readF32s]
      rw [readU32LE_le32 _ hc]
      simp only [Option.bind_eq_bind, Option.some_bind]
      rw [ih hcs]
      simp only [Option.some_bind]

/-- Reading back the serialized records recovers them, consuming the buffer
exactly. -/
theorem readAotRecords_roundtrip {records : List AotRecord} {dim : Nat}
    (hid : ∀ r ∈ records, r.id.length < 2 ^ 32)
    (hvdim : ∀ r ∈ records, r.vec.length = dim)
    (hvec : ∀ r ∈ records, ∀ c ∈ r.vec, c < 2 ^ 32) :
    readAotRecords dim records.length ((records.map recordBytes).flatten) =
      some records := by
  induction records with
  | nil => rfl
  | cons r rs ih =>
      have hidr : r.id.length < 2 ^ 32 := hid r (List.mem_cons_self r rs)
      have hdimr : r.vec.length = dim := hvdim r (List.mem_cons_self r rs)
      have hvecr : ∀ c ∈ r.vec, c < 2 ^ 32 := hvec r (List.mem_cons_self r rs)
      simp only [List.map_cons, List.flatten_cons, List.length_cons, recordBytes,
        List.append_assoc]
      rw [readAotRecords]
      rw [readU32LE_le32 _ hidr]
      simp only [Option.bind_eq_bind, Option.some_bind]
      rw [if_pos (by simp)]
      rw [List.take_left' rfl, List.drop_left' rfl]
      rw [readF32s_flatten _ hdimr hvecr]
      simp only [Option.some_bind]
      rw [ih (fun x hx => hid x (List.mem_cons_of_mem r hx))
        (fun x hx => hvdim x (List.mem_cons_of_mem r hx))
        (fun x hx => hvec x (List.mem_cons_of_mem r hx))]
      simp only [Option.some_bind]

/-- C3: decoding the bytes produced by `generate_aot` reproduces the records
exactly — ids, vectors to float32 precision (bit patterns), and order — for
any record table whose counts and lengths fit the u32 fields and whose
vectors all have the header dimension. -/
theorem decode_generate_aot (records : List AotRecord) (mv : List Nat)
    (hcount : records.length < 2 ^ 32)
    (hdim : aotDimension records < 2 ^ 32)
    (hid : ∀ r ∈ records, r.id.length < 2 ^ 32)
    (hvdim : ∀ r ∈ records, r.vec.length = aotDimension records)
    (hvec : ∀ r ∈ records, ∀ c ∈ r.vec, c < 2 ^ 32) :
    decode (generate_aot records mv) = .ok records := by
  unfold generate_aot decode
  simp only [List.append_assoc]
  rw [List.take_left' (show (MAGIC : List Nat).length = 4 from rfl),
    List.drop_left' (show (MAGIC : List Nat).length = 4 from rfl)]
  rw [if_neg (by simp)]
  rw [readU32LE_le32 _ (by norm_num)]
  dsimp only
  rw [if_neg (by simp)]
  rw [readU32LE_le32 _ hcount]
  dsimp only
  rw [readU32LE_le32 _ hdim]
  dsimp only
  rw [if_pos (by simp only [List.length_append, modelVersionBytes_length]; omega)]
  rw [List.drop_left' (modelVersionBytes_length mv)]
  rw [readAotRecords_roundtrip hid hvdim hvec]

/-- C3 (witness): a concrete one-record table round-trips. -/
theorem decode_generate_aot_witness :
    (([{ id := [119], vec := [5, 7] }] : List AotRecord).length < 2 ^ 32 ∧
      aotDimension [{ id := [119], vec := [5, 7] }] < 2 ^ 32) ∧
    decode (generate_aot [{ id := [119], vec := [5, 7] }] [1, 2]) =
      .ok [{ id := [119], vec := [5, 7] }] :=
  ⟨⟨by decide, by decide⟩,
    decode_generate_aot [{ id := [119], vec := [5, 7] }] [1, 2] (by decide)
      (by decide) (by decide) (by decide) (by decide)⟩

/-- C4: for a non-empty record table, `generate_aot` writes exactly the
magic `AOT\x00`, the little-endian u32 version 1, record count and vector
dimension (the first record's length), the 32-byte truncated/null-padded
model-version string, then per record in iteration order a little-endian u32
id length, the id bytes, and the vector's float32 components. -/
theorem generate_aot_layout (records : List AotRecord) (mv : List Nat)
    (h : records ≠ []) :
    generate_aot records mv =
      [65, 79, 84, 0] ++ le32 1 ++ le32 records.length ++
        le32 (records.head h).vec.length ++
        (mv.take 32 ++ List.replicate (32 - (mv.take 32).length) 0) ++
        (records.map fun r =>
          le32 r.id.length ++ r.id ++ (r.vec.map le32).flatten).flatten ∧
      (modelVersionBytes mv).length = 32 := by
  refine ⟨?_, modelVersionBytes_length mv⟩
  cases records with
  | nil => exact absurd rfl h
  | cons r rs => rfl

/-- C4 (witness): the layout theorem at a concrete one-record table. -/
theorem generate_aot_layout_witness :
    (([{ id := [119], vec := [5] }] : List AotRecord) ≠ []) ∧
    (generate_aot [{ id := [119], vec := [5] }] [109] =
      [65, 79, 84, 0] ++ le32 1 ++ le32 ([{ id := [119], vec := [5] }] :
          List AotRecord).length ++
        le32 (([{ id := [119], vec := [5] }] : List AotRecord).head
          (by decide)).vec.length ++
        (([109] : List Nat).take 32 ++
          List.replicate (32 - (([109] : List Nat).take 32).length) 0) ++
        (([{ id := [119], vec := [5] }] : List AotRecord).map fun r =>
          le32 r.id.length ++ r.id ++ (r.vec.map le32).flatten).flatten ∧
      (modelVersionBytes [109]).length = 32) :=
  ⟨by decide, generate_aot_layout [{ id := [119], vec := [5] }] [109] (by decide)⟩

/-- C10: for an empty record table, `generate_aot` still writes a complete
header — magic, version 1, record count 0, the hard-coded default dimension
384, and the 32-byte model-version field — followed by no record bytes. -/
theorem generate_aot_empty_header (mv : List Nat) :
    generate_aot [] mv =
      [65, 79, 84, 0] ++ le32 1 ++ le32 0 ++ le32 384 ++
        (mv.take 32 ++ List.replicate (32 - (mv.take 32).length) 0) ∧
      (modelVersionBytes mv).length = 32 := by
  refine ⟨?_, modelVersionBytes_length mv⟩
  simp [generate_aot, MAGIC, aotDimension, modelVersionBytes]

/-! ## Per-intent embedding aggregation (C7)

`compute_intent_embedding` drives one inference call per example; a call that
raises is modelled as `none`.  Vector arithmetic is modelled over `ℝ` (the
final `astype(np.float32)` is a precision cast, the identity here). -/

/-- Componentwise vector addition (`numpy` broadcasting over equal-length
per-example embeddings). -/
noncomputable def vecAdd (a b : List ℝ) : List ℝ := List.zipWith (· + ·) a b

/-- `np.mean(embeddings, axis=0)`: componentwise arithmetic mean. -/
noncomputable def vecMean (vs : List (List ℝ)) : List ℝ :=
  match vs with
  | [] => []
  | v :: rest => (rest.foldl vecAdd v).map fun x => x / (vs.length : ℝ)

/-- `np.linalg.norm(v)`: the Euclidean norm. -/
noncomputable def l2norm (v : List ℝ) : ℝ :=
  Real.sqrt ((v.map fun x => x * x).sum)

/-- The normalization step `if norm > 0: v = v / norm` (a no-op when the norm
is zero). -/
noncomputable def l2normalize (v : List ℝ) : List ℝ :=
  if 0 < l2norm v then v.map fun x => x / l2norm v else v

/-- `EmbeddingGenerator.compute_intent_embedding(examples)`: collect the
per-example embeddings that succeed (a raising call is logged and skipped),
return `None` when none survive, otherwise the normalized mean. -/
noncomputable def compute_intent_embedding (embed : String → Option (List ℝ))
    (examples : List String) : Option (List ℝ) :=
  let embeddings := examples.foldl
    (fun acc ex =>
      match embed ex with
      | some emb => acc ++ [emb]
      | none => acc) []
  if embeddings.isEmpty then none
  else some (l2normalize (vecMean embeddings))

/-- The success-collecting loop keeps exactly the successful results, in
example order. -/
theorem foldl_collect (embed : String → Option (List ℝ)) (examples : List String)
    (acc : List (List ℝ)) :
    examples.foldl
      (fun acc ex =>
        match embed ex with
        | some emb => acc ++ [emb]
        | none => acc) acc = acc ++ examples.filterMap embed := by
  induction examples generalizing acc with
  | nil => simp
  | cons e es ih =>
      cases h : embed e <;> simp [List.foldl_cons, h, ih]

/-- C7: `compute_intent_embedding` skips failing examples and continues with
the rest, returns the L2-normalized arithmetic mean of the surviving vectors
(in example order), and returns `None` exactly when zero examples
succeeded. -/
theorem compute_intent_embedding_spec (embed : String → Option (List ℝ))
    (examples : List String) :
    compute_intent_embedding embed examples =
      (if examples.filterMap embed = [] then none
       else some (l2normalize (vecMean (examples.filterMap embed)))) ∧
    (compute_intent_embedding embed examples = none ↔
      examples.filterMap embed = []) := by
  have heq : compute_intent_embedding embed examples =
      (if examples.filterMap embed = [] then none
       else some (l2normalize (vecMean (examples.filterMap embed)))) := by
    simp only [compute_intent_embedding, foldl_collect, List.nil_append,
      List.isEmpty_iff]
  refine ⟨heq, ?_⟩
  rw [heq]
  by_cases h : examples.filterMap embed = [] <;> simp [h]

/-! ## SQL emitter (C8)

`generate_sql` builds the output as a list of text lines and only then writes
them to a file; the text construction is modelled here.  A record carries the
intent id, the vector's float32 bit patterns, and the example count.  The run
timestamp `current_time = int(time.time() * 1000)` and the header date string
are computed once per call and modelled as parameters. -/

/-- An uppercase hexadecimal digit. -/
def hexDigit (n : Nat) : Char :=
  if n < 10 then Char.ofNat (48 + n) else Char.ofNat (55 + n)

/-- One byte as two uppercase hex digits (`blob.hex().upper()`). -/
def byteHexUpper (b : Nat) : String :=
  String.mk [hexDigit (b / 16 % 16), hexDigit (b % 16)]

/-- `embedding_to_blob(embedding)`: the little-endian float32 bytes — each
component's 32-bit pattern, little-endian. -/
def embedding_to_blob (vec : List Nat) : List Nat := (vec.map le32).flatten

/-- `blob_to_hex(blob)`: the SQLite hex literal `X'…'`. -/
def blob_to_hex (blob : List Nat) : String :=
  "X'" ++ String.join (blob.map byteHexUpper) ++ "'"

/-- The delete statement clearing previously bundled embeddings for the
locale. -/
def deleteStmt (locale : String) : String :=
  "DELETE FROM intent_embedding WHERE source = 'BUNDLED_APK' AND locale = '" ++
    (locale ++ "';")

/-- One `INSERT OR REPLACE` statement.  The two timestamp parameters fill the
`created_at` and `updated_at` columns. -/
def insertStatement (intent_id locale : String) (vec : List Nat)
    (model_version : String) (created_at updated_at example_count : Nat) : String :=
  "INSERT OR REPLACE INTO intent_embedding (\n    intent_id, locale, " ++
    ("embedding_vector, embedding_dimension, model_version,\n    " ++
    ("normalization_type, ontology_id, created_at, updated_at, " ++
    ("example_count, source\n) VALUES (\n    '" ++
    (intent_id ++ ("', '" ++ (locale ++ ("', " ++
    (blob_to_hex (embedding_to_blob vec) ++ (", " ++ (toString vec.length ++
    (", '" ++ (model_version ++ ("',\n    'L2', NULL, " ++ (toString created_at ++
    (", " ++ (toString updated_at ++ (", " ++ (toString example_count ++
    ", 'BUNDLED_APK'\n);"))))))))))))))))))

/-- The fixed header lines of the generated SQL file, comments plus the
single delete statement. -/
def sqlHeaderLines (n : Nat) (model_version locale date_str : String) :
    List String :=
  ["-- Pre-computed intent embeddings",
   "-- Generated by tools/embedding-generator/generate_embeddings.py",
   "-- Model: " ++ model_version,
   "-- Locale: " ++ locale,
   "-- Generated: " ++ date_str,
   "-- Total embeddings: " ++ toString n,
   "",
   "-- This file is auto-generated. Do not edit manually.",
   "-- Regenerate with: python tools/embedding-generator/generate_embeddings.py",
   "",
   "-- Clear existing bundled embeddings for this locale before inserting",
   deleteStmt locale,
   "",
   "-- Insert pre-computed embeddings"]

/-- The text construction of `generate_sql(embeddings, model_version,
output_path, locale)`: the header lines, then the loop appending one upsert
statement (followed by a blank line) per record, using the one run timestamp
for both timestamp columns. -/
def generate_sql_lines (embeddings : List (String × List Nat × Nat))
    (model_version locale : String) (current_time : Nat) (date_str : String) :
    List String :=
  embeddings.foldl
    (fun lines e =>
      lines ++ [insertStatement e.1 locale e.2.1 model_version current_time
        current_time e.2.2, ""])
    (sqlHeaderLines embeddings.length model_version locale date_str)

/-- Prepending a nonempty string determines the first character. -/
theorem pyStartsWithChar_append (a b : String) (c : Char) (h : a.data ≠ []) :
    pyStartsWithChar (a ++ b) c = pyStartsWithChar a c := by
  unfold pyStartsWithChar
  rw [String.data_append]
  cases ha : a.data with
  | nil => exact absurd ha h
  | cons x xs => simp [ha]

/-- The statement-appending loop, as the header followed by the per-record
pairs. -/
theorem generate_sql_lines_eq (embeddings : List (String × List Nat × Nat))
    (model_version locale : String) (current_time : Nat) (date_str : String) :
    generate_sql_lines embeddings model_version locale current_time date_str =
      sqlHeaderLines embeddings.length model_version locale date_str ++
        (embeddings.map fun e =>
          [insertStatement e.1 locale e.2.1 model_version current_time
            current_time e.2.2, ""]).flatten := by
  unfold generate_sql_lines
  generalize sqlHeaderLines embeddings.length model_version locale date_str = acc
  induction embeddings generalizing acc with
  | nil => simp
  | cons e es ih => simp [List.foldl_cons, ih]

/-- The delete statement starts with `D`. -/
theorem deleteStmt_head (locale : String) :
    pyStartsWithChar (deleteStmt locale) 'D' = true := by
  unfold deleteStmt
  rw [pyStartsWithChar_append _ _ _ (by decide)]
  decide

/-- An insert statement starts with `I`, not `D`. -/
theorem insertStatement_not_delete (intent_id locale : String) (vec : List Nat)
    (model_version : String) (created_at updated_at example_count : Nat) :
    pyStartsWithChar
      (insertStatement intent_id locale vec model_version created_at updated_at
        example_count) 'D' = false := by
  unfold insertStatement
  rw [pyStartsWithChar_append _ _ _ (by decide)]
  decide

/-- C8: `generate_sql`'s text construction is exactly one delete statement
scoped to `source = 'BUNDLED_APK'` and the given locale (inside the fixed
header), followed by one upsert statement per record in table order, each
using the single per-call run timestamp for both the `created_at` and
`updated_at` columns; among all emitted lines exactly one is a delete
statement. -/
theorem generate_sql_structure (embeddings : List (String × List Nat × Nat))
    (model_version locale : String) (current_time : Nat) (date_str : String) :
    generate_sql_lines embeddings model_version locale current_time date_str =
      sqlHeaderLines embeddings.length model_version locale date_str ++
        (embeddings.map fun e =>
          [insertStatement e.1 locale e.2.1 model_version current_time
            current_time e.2.2, ""]).flatten ∧
    (generate_sql_lines embeddings model_version locale current_time
        date_str).countP (fun s => pyStartsWithChar s 'D') = 1 := by
  have heq := generate_sql_lines_eq embeddings model_version locale current_time
    date_str
  refine ⟨heq, ?_⟩
  rw [heq, List.countP_append]
  have hhead : (sqlHeaderLines embeddings.length model_version locale
      date_str).countP (fun s => pyStartsWithChar s 'D') = 1 := by
    unfold sqlHeaderLines
    simp only [List.countP_cons, List.countP_nil, deleteStmt_head,
      pyStartsWithChar_append "-- Model: " model_version 'D' (by decide),
      pyStartsWithChar_append "-- Locale: " locale 'D' (by decide),
      pyStartsWithChar_append "-- Generated: " date_str 'D' (by decide),
      pyStartsWithChar_append "-- Total embeddings: "
        (toString embeddings.length) 'D' (by decide)]
    decide
  have htail : ∀ l : List (String × List Nat × Nat),
      ((l.map fun e =>
        [insertStatement e.1 locale e.2.1 model_version current_time
          current_time e.2.2, ""]).flatten).countP
        (fun s => pyStartsWithChar s 'D') = 0 := by
    intro l
    induction l with
    | nil => rfl
    | cons e es ih =>
        simp only [List.map_cons, List.flatten_cons, List.countP_append, ih,
          List.countP_cons, List.countP_nil, insertStatement_not_delete]
        decide
  rw [hhead, htail]

end AvaEmbed
